import Mathlib

/-
Verification of the UI form system of the GamePlay repository
(src/gameplay/src/Form.h).  The repository slice ships only the header:
declarations and documentation comments.  The behavior of every member
function is therefore modelled from the specification (spec.md) and from the
doc comments in Form.h, as a shallow embedding: forms, controls, the
process-wide focus/active state, pointer-event routing, projection, and the
sprite-batch draw-call count.
-/

namespace GamePlay

/-- Modelled from the spec (section 3, section 4.1): the enumerated interaction
state of a control — normal, focused, active, disabled, hover — exactly one of
which holds at any time. -/
inductive CState where
  | NORMAL
  | FOCUS
  | ACTIVE
  | DISABLED
  | HOVER
deriving DecidableEq

/-- Modelled from the spec: an axis-aligned pixel rectangle (position and
size), used for form and control bounds. -/
structure Rect where
  x : Int
  y : Int
  w : Int
  h : Int
deriving DecidableEq

/-- Modelled from the spec: pixel-rectangle membership used by hit testing. -/
def Rect.contains (r : Rect) (px py : Int) : Bool :=
  decide (r.x ≤ px) && decide (px < r.x + r.w) &&
  decide (r.y ≤ py) && decide (py < r.y + r.h)

/-- Modelled from the spec (section 3): the projection matrix a form owns,
identity for overlay forms and camera-relative for node-attached forms.
Embedded as a 2D affine transform with integer entries. -/
structure Mat where
  a : Int
  b : Int
  c : Int
  d : Int
  tx : Int
  ty : Int
deriving DecidableEq

/-- Modelled from the spec: the identity projection matrix of an overlay
form. -/
def Mat.identity : Mat :=
  { a := 1, b := 0, c := 0, d := 1, tx := 0, ty := 0 }

/-- Modelled from the spec: application of a projection matrix to a point. -/
def Mat.apply (m : Mat) (px py : Int) : Int × Int :=
  (m.a * px + m.b * py + m.tx, m.c * px + m.d * py + m.ty)

/-- Modelled from the spec: a scene node a form may be attached to; only its
identity and transform matter to this slice. -/
structure Node where
  nid : Nat
  transform : Mat
deriving DecidableEq

/-- Modelled from the spec (section 6): a style resolved inside a theme; only
the identifiers matter to this slice. -/
structure Style where
  sid : Nat
  themeId : Nat
deriving DecidableEq

/-- Modelled from the spec: the default UI theme's style, used by
Form::create when NULL is passed for the style (Form.h lines 77-79). -/
def defaultStyle : Style :=
  { sid := 0, themeId := 0 }

/-- Modelled from the spec (sections 3, 4.1): a leaf UI control — an
identifier, its interaction state, whether it accepts focus, its bounds in
form-local pixels, the texture it draws with, and the theme it inherited. -/
structure Control where
  cid : Nat
  state : CState
  canFocus : Bool
  bounds : Rect
  tex : Nat
  theme : Nat
deriving DecidableEq

/-- Modelled from the spec (section 4.1): the enabled predicate of the control
capability contract; a control is enabled unless its state is DISABLED. -/
def Control.isEnabled (c : Control) : Bool :=
  match c.state with
  | CState.DISABLED => false
  | _ => true

/-- Modelled from the spec (section 6): the layout types recognized for a
form: absolute, vertical, horizontal, flow, scroll. -/
inductive LayoutType where
  | LAYOUT_ABSOLUTE
  | LAYOUT_VERTICAL
  | LAYOUT_HORIZONTAL
  | LAYOUT_FLOW
  | LAYOUT_SCROLL
deriving DecidableEq

/-- Modelled from the spec (section 3): a form — a named top-level container
owning zero-or-one node attachment, a projection matrix (identity for overlay
forms), an ordered list of child controls, the consumeEvents flag (default
false), and the batching flag (default true, Form.h lines 152-157). -/
structure Form where
  fid : Nat
  enabled : Bool
  visible : Bool
  bounds : Rect
  controls : List Control
  consumeEvents : Bool
  node : Option Node
  projectionMatrix : Mat
  batched : Bool
  style : Style
  theme : Nat
deriving DecidableEq

/-- Modelled from the spec: accessor for the form's stored projection
matrix (Form.h line 273). -/
def Form.getProjectionMatrix (f : Form) : Mat :=
  f.projectionMatrix

/-- Modelled from the spec (section 3): the camera-relative projection matrix
installed when a form is attached to a node, abstracted as the node's
transform. -/
def nodeProjection (n : Node) : Mat :=
  n.transform

/-- Modelled from the spec (Form.h lines 116-123, section 3): attach this form
to a node, or detach it when no node is given; attaching installs the
camera-relative projection matrix, detaching restores the overlay identity
matrix. -/
def Form.setNode (f : Form) (n : Option Node) : Form :=
  { f with
    node := n
    projectionMatrix :=
      match n with
      | none => Mat.identity
      | some nd => nodeProjection nd }

/-- Modelled from the spec (section 4.2, Form.h lines 263-271): project a
screen point onto the form.  For an overlay form this is the identity
transform into form-local coordinates, a hit exactly when the point is inside
the form's bounds; for a node-attached form the ray/plane intersection is
abstracted as the node transform applied to the point. -/
def Form.projectPoint (f : Form) (px py : Int) : Option (Int × Int) :=
  match f.node with
  | none =>
    if f.bounds.contains px py then some (px - f.bounds.x, py - f.bounds.y)
    else none
  | some nd =>
    let p := (nodeProjection nd).apply px py
    if f.bounds.contains p.1 p.2 then some (p.1 - f.bounds.x, p.2 - f.bounds.y)
    else none

/-- Modelled from the spec (Form.h line 285): convert a screen point into the
form-local coordinate space of the given form. -/
def Form.screenToForm (f : Form) (px py : Int) : Int × Int :=
  match f.node with
  | none => (px - f.bounds.x, py - f.bounds.y)
  | some nd =>
    let p := (nodeProjection nd).apply px py
    (p.1 - f.bounds.x, p.2 - f.bounds.y)

/-- Modelled from the spec (Form.h lines 142-147): whether batching is enabled
for this form. -/
def Form.isBatchingEnabled (f : Form) : Bool :=
  f.batched

/-- Modelled from the spec (Form.h lines 149-159): turn batching on or off for
this form. -/
def Form.setBatchingEnabled (f : Form) (enabled : Bool) : Form :=
  { f with batched := enabled }

/-- Modelled from the spec (Form.h lines 74-88): programmatic Form creation.
If NULL (none) is passed for the style the default UI theme is used; creation
of a programmatic form never fails, so the result is always some form.  The
new form starts as an overlay (no node, identity projection), with batching
enabled by default, consumeEvents false by default, and no controls. -/
def Form.create (id : Nat) (style : Option Style) (layoutType : LayoutType) :
    Option Form :=
  let s := style.getD defaultStyle
  some
    { fid := id
      enabled := true
      visible := true
      bounds := { x := 0, y := 0, w := 0, h := 0 }
      controls := []
      consumeEvents := false
      node := none
      projectionMatrix := Mat.identity
      batched := true
      style := s
      theme := s.themeId }

/-- Modelled from the spec (Form.h lines 77-79): a control added to a form
inherits the theme that contains the form's style. -/
def Form.addControl (f : Form) (c : Control) : Form :=
  { f with controls := f.controls ++ [{ c with theme := f.theme }] }

/-- Modelled from the spec (section 4.4): the sprite-batch session loop of
draw.  The first argument is the remaining controls, the second the texture of
the currently open batch session (none when no session is open), the third the
draw calls flushed so far.  A control whose texture matches the open session
appends to it; otherwise the open session is flushed (finishBatch, one draw
call) and a new session is started (startBatch); the last open session is
flushed at the end. -/
def drawBatched : List Control → Option Nat → Nat → Nat
  | [], none, n => n
  | [], some _, n => n + 1
  | c :: rest, none, n => drawBatched rest (some c.tex) n
  | c :: rest, some t, n =>
    if c.tex = t then drawBatched rest (some t) n
    else drawBatched rest (some c.tex) (n + 1)

/-- Modelled from the spec (section 4.4, Form.h lines 130-135): draw the form
and return the number of draw calls issued.  With batching enabled contiguous
runs of controls sharing a texture are coalesced into one call each; with
batching disabled every control is flushed separately. -/
def Form.draw (f : Form) : Nat :=
  if f.batched then drawBatched f.controls none 0
  else f.controls.length

/-- Specification-side count: the number of contiguous runs of equal textures
in a list of texture identifiers. -/
def textureRuns : List Nat → Nat
  | [] => 0
  | [_] => 1
  | a :: b :: rest => (if a = b then 0 else 1) + textureRuns (b :: rest)

lemma textureRuns_cons_le (b : Nat) (l : List Nat) :
    textureRuns (b :: l) ≤ 1 + textureRuns l := by
  cases l with
  | nil => simp [textureRuns]
  | cons c rest =>
    show (if b = c then 0 else 1) + textureRuns (c :: rest) ≤ 1 + textureRuns (c :: rest)
    have : (if b = c then 0 else 1) ≤ 1 := by split <;> omega
    omega

lemma textureRuns_le_length (l : List Nat) : textureRuns l ≤ l.length := by
  induction l with
  | nil => simp [textureRuns]
  | cons a rest ih =>
    have h := textureRuns_cons_le a rest
    simp only [List.length_cons]
    omega

lemma drawBatched_some (cs : List Control) (t : Nat) (n : Nat) :
    drawBatched cs (some t) n = n + textureRuns (t :: cs.map (fun c => c.tex)) := by
  induction cs generalizing t n with
  | nil => simp [drawBatched, textureRuns]
  | cons c rest ih =>
    by_cases h : c.tex = t
    · subst h
      simp only [drawBatched, if_pos rfl, List.map_cons]
      rw [ih]
      show n + textureRuns (c.tex :: rest.map (fun c => c.tex)) =
        n + ((if c.tex = c.tex then 0 else 1) + textureRuns (c.tex :: rest.map (fun c => c.tex)))
      simp
    · simp only [drawBatched, if_neg h, List.map_cons]
      rw [ih]
      show n + 1 + textureRuns (c.tex :: rest.map (fun c => c.tex)) =
        n + ((if t = c.tex then 0 else 1) + textureRuns (c.tex :: rest.map (fun c => c.tex)))
      have : ¬ t = c.tex := fun hq => h hq.symm
      rw [if_neg this]
      omega

lemma drawBatched_none (cs : List Control) :
    drawBatched cs none 0 = textureRuns (cs.map (fun c => c.tex)) := by
  cases cs with
  | nil => simp [drawBatched, textureRuns]
  | cons c rest =>
    show drawBatched rest (some c.tex) 0 = textureRuns ((c :: rest).map (fun c => c.tex))
    rw [drawBatched_some]
    simp

/-- Modelled from the spec (section 3): the process-wide UI state owned by the
event router and form registry — the insertion-ordered live-form set (later
entries are top-most), the focus-control reference, the active-control
reference, and the press-originating interaction state (Form.h lines
303-305). -/
structure UIState where
  forms : List Form
  focusControl : Option Nat
  activeControl : Option Nat
  activeControlState : CState
deriving DecidableEq

/-- Every control of every live form, in form order. -/
def allControls (forms : List Form) : List Control :=
  forms.flatMap (fun f => f.controls)

/-- Modelled from the spec: update of the single control carrying a given
identifier, leaving every other control unchanged. -/
def modOne (k : Nat) (g : CState → CState) (c : Control) : Control :=
  if c.cid = k then { c with state := g c.state } else c

/-- Modelled from the spec: apply a state transition to the control with the
given identifier inside the live-form set. -/
def mapControlState (forms : List Form) (k : Nat) (g : CState → CState) :
    List Form :=
  forms.map (fun f => { f with controls := f.controls.map (modOne k g) })

/-- Modelled from the spec: locate the form and control carrying a given
control identifier in the live-form set. -/
def lookupControl (forms : List Form) (k : Nat) : Option (Form × Control) :=
  match forms with
  | [] => none
  | f :: rest =>
    match f.controls.find? (fun c => c.cid = k) with
    | some c => some (f, c)
    | none => lookupControl rest k

/-- Modelled from the spec (section 4.3): within a hit form, the deepest
enabled control whose bounds contain the form-local point; later children are
drawn on top, so the search runs from the back of the list. -/
def findControlAt (cs : List Control) (lx ly : Int) : Option Control :=
  cs.reverse.find? (fun c => c.isEnabled && c.bounds.contains lx ly)

/-- Modelled from the spec (section 4.3): iterate the live-form set from
top-most (most recently inserted) to bottom-most and return the first enabled,
visible form whose projection reports a hit. -/
def topmostHitForm (forms : List Form) (px py : Int) : Option Form :=
  forms.reverse.find?
    (fun f => f.enabled && f.visible && (f.projectPoint px py).isSome)

/-- Modelled from the spec (section 4.3, Form.h lines 277-279): find the input
control for a pointer event — the first hit form decides, and inside it the
deepest enabled control containing the projected point is the target. -/
def UIState.findInputControl (st : UIState) (px py : Int) :
    Option (Form × Control) :=
  match topmostHitForm st.forms px py with
  | none => none
  | some f =>
    match f.projectPoint px py with
    | none => none
    | some p => (findControlAt f.controls p.1 p.2).map (fun c => (f, c))

/-- Modelled from the spec: whether the screen point lies inside the bounds of
the control carrying the given identifier, in its form's local space. -/
def controlInsideAt (forms : List Form) (k : Nat) (px py : Int) : Bool :=
  match lookupControl forms k with
  | none => false
  | some (f, c) =>
    let p := f.screenToForm px py
    c.bounds.contains p.1 p.2

/-- Modelled from the spec (section 4.1): losing focus demotes a FOCUS-state
control back to NORMAL. -/
def demoteFocus (s : CState) : CState :=
  if s = CState.FOCUS then CState.NORMAL else s

/-- Modelled from the spec (section 4.1): gaining focus promotes a NORMAL or
HOVER control to FOCUS. -/
def promoteFocus (s : CState) : CState :=
  if s = CState.NORMAL ∨ s = CState.HOVER then CState.FOCUS else s

/-- Modelled from the spec (section 5): a previous gesture is implicitly
cancelled; its captured control drops from ACTIVE back to NORMAL. -/
def cancelActive (s : CState) : CState :=
  if s = CState.ACTIVE then CState.NORMAL else s

/-- Modelled from the spec (Form.h line 291, sections 4.3 and 7): move focus
to the given control (or clear it).  The old focus control is demoted, the new
one promoted; focusing a disabled or unknown control is silently rejected. -/
def UIState.setFocus (st : UIState) (target : Option Nat) : UIState :=
  match target with
  | none =>
    match st.focusControl with
    | none => { st with focusControl := none }
    | some old =>
      { st with forms := mapControlState st.forms old demoteFocus,
                focusControl := none }
  | some k =>
    match lookupControl st.forms k with
    | none => st
    | some fc =>
      if fc.2.isEnabled then
        let fs :=
          match st.focusControl with
          | none => st.forms
          | some old => mapControlState st.forms old demoteFocus
        { st with forms := mapControlState fs k promoteFocus,
                  focusControl := some k }
      else st

/-- Modelled from the spec (section 5): a new press abandons the capture state
of any gesture still in progress. -/
def UIState.cancelGesture (st : UIState) : UIState :=
  match st.activeControl with
  | none => st
  | some k =>
    { st with forms := mapControlState st.forms k cancelActive,
              activeControl := none }

/-- Modelled from the spec (section 4.3, Form.h line 281): a pointer press.
Any previous gesture is cancelled; the target control (if any) becomes the
active control in state ACTIVE, and the focus control unless it declines
focus; the event is consumed when a target exists, otherwise per the hit
form's consumeEvents flag. -/
def UIState.handlePress (st : UIState) (px py : Int) : UIState × Bool :=
  let st0 := st.cancelGesture
  match st0.findInputControl px py with
  | some fc =>
    let st1 := if fc.2.canFocus then st0.setFocus (some fc.2.cid) else st0
    ({ st1 with
        forms := mapControlState st1.forms fc.2.cid (fun _ => CState.ACTIVE),
        activeControl := some fc.2.cid,
        activeControlState := fc.2.state }, true)
  | none =>
    match topmostHitForm st0.forms px py with
    | some f => (st0, f.consumeEvents)
    | none => (st0, false)

/-- Modelled from the spec (section 4.3, Form.h line 283): a pointer move
while a control is active keeps the capture on that control — its state is
ACTIVE while the pointer stays inside its bounds and FOCUS otherwise, and the
active reference is unchanged; with no active control the move is not
consumed. -/
def UIState.handleMove (st : UIState) (px py : Int) : UIState × Bool :=
  match st.activeControl with
  | none => (st, false)
  | some k =>
    let ns := if controlInsideAt st.forms k px py then CState.ACTIVE
      else CState.FOCUS
    ({ st with forms := mapControlState st.forms k (fun _ => ns) }, true)

/-- Modelled from the spec (section 4.3, Form.h line 281): a pointer release
clears the active control, transitions it to NORMAL (or FOCUS if the pointer
is still inside its bounds), and consumes the event exactly when an active
control existed. -/
def UIState.handleRelease (st : UIState) (px py : Int) : UIState × Bool :=
  match st.activeControl with
  | none => (st, false)
  | some k =>
    let ns := if controlInsideAt st.forms k px py then CState.FOCUS
      else CState.NORMAL
    ({ st with forms := mapControlState st.forms k (fun _ => ns),
               activeControl := none }, true)

/-- Modelled from the spec (Form.h lines 99-104): the current focus control
reference, null when no control is in focus. -/
def UIState.getFocusControl (st : UIState) : Option Nat :=
  st.focusControl

/-- Modelled from the spec (Form.h line 166): the single currently active
control reference, null when no control is active. -/
def UIState.getActiveControl (st : UIState) : Option Nat :=
  st.activeControl

/-- Modelled from the spec (Form.h line 289, section 3): a control's
transition to DISABLED forces a release of the focus/active references to
it. -/
def UIState.disableControl (st : UIState) (k : Nat) : UIState :=
  { st with
    forms := mapControlState st.forms k (fun _ => CState.DISABLED),
    focusControl := if st.focusControl = some k then none else st.focusControl,
    activeControl :=
      if st.activeControl = some k then none else st.activeControl }

/-- Modelled from the spec (Form.h lines 287-289, section 7): destroying a
control synchronously clears any focus/active slot referencing it and purges
it from its form. -/
def UIState.removeControl (st : UIState) (k : Nat) : UIState :=
  { st with
    forms := st.forms.map
      (fun f => { f with controls := f.controls.filter (fun c => c.cid ≠ k) }),
    focusControl := if st.focusControl = some k then none else st.focusControl,
    activeControl :=
      if st.activeControl = some k then none else st.activeControl }

/-- Modelled from the spec (section 4.3): the input events the router
dispatches — pointer press, move, release, a key stroke delivered to the
focus control, and an explicit focus change. -/
inductive UIEvent where
  | press (px py : Int)
  | move (px py : Int)
  | release (px py : Int)
  | key (code : Nat)
  | focusChange (target : Option Nat)
deriving DecidableEq

/-- Modelled from the spec (section 4.3): one routing step of the event
router over the process-wide UI state. -/
def UIState.step (st : UIState) (e : UIEvent) : UIState :=
  match e with
  | UIEvent.press px py => (st.handlePress px py).1
  | UIEvent.move px py => (st.handleMove px py).1
  | UIEvent.release px py => (st.handleRelease px py).1
  | UIEvent.key _ => st
  | UIEvent.focusChange target => st.setFocus target

/-- Modelled from the spec (section 4.3): the control an event is routed to —
the hit target for a press, the capturing active control for a move or a
release, the focus control for a key; a focus change routes no input. -/
def UIState.routedTo (st : UIState) (e : UIEvent) : Option Nat :=
  match e with
  | UIEvent.press px py =>
    ((st.cancelGesture).findInputControl px py).map (fun fc => fc.2.cid)
  | UIEvent.move _ _ => st.activeControl
  | UIEvent.release _ _ => st.activeControl
  | UIEvent.key _ => st.focusControl
  | UIEvent.focusChange _ => none

/-- Routing of a whole event sequence. -/
def UIState.run (st : UIState) (es : List UIEvent) : UIState :=
  es.foldl UIState.step st

/-- The control references every event of a sequence is routed to, in
order. -/
def UIState.targetsRun (st : UIState) : List UIEvent → List (Option Nat)
  | [] => []
  | e :: rest => st.routedTo e :: (st.step e).targetsRun rest

lemma modOne_cid (k : Nat) (g : CState → CState) (c : Control) :
    (modOne k g c).cid = c.cid := by
  unfold modOne
  split <;> rfl

lemma allControls_nil : allControls [] = [] := rfl

lemma allControls_cons (f : Form) (fs : List Form) :
    allControls (f :: fs) = f.controls ++ allControls fs := by
  simp [allControls]

lemma allControls_append (u v : List Form) :
    allControls (u ++ v) = allControls u ++ allControls v := by
  simp [allControls]

lemma allControls_mapControlState (forms : List Form) (k : Nat)
    (g : CState → CState) :
    allControls (mapControlState forms k g) =
      (allControls forms).map (modOne k g) := by
  induction forms with
  | nil => rfl
  | cons f fs ih =>
    simp only [mapControlState, List.map_cons] at ih ⊢
    rw [allControls_cons, allControls_cons, List.map_append, ih]

/-- The control identifiers present in the live-form set, in order. -/
def cidsOf (forms : List Form) : List Nat :=
  (allControls forms).map (fun c => c.cid)

lemma cidsOf_mapControlState (forms : List Form) (k : Nat)
    (g : CState → CState) :
    cidsOf (mapControlState forms k g) = cidsOf forms := by
  unfold cidsOf
  rw [allControls_mapControlState, List.map_map]
  congr 1
  funext c
  exact modOne_cid k g c

lemma mem_mapControlState_of_ne {c : Control} {forms : List Form} {k : Nat}
    (g : CState → CState) (hm : c ∈ allControls forms) (hk : c.cid ≠ k) :
    c ∈ allControls (mapControlState forms k g) := by
  rw [allControls_mapControlState]
  refine List.mem_map.mpr ⟨c, hm, ?_⟩
  unfold modOne
  rw [if_neg hk]

lemma mem_of_mem_mapControlState_ne {c : Control} {forms : List Form} {k : Nat}
    {g : CState → CState} (hm : c ∈ allControls (mapControlState forms k g))
    (hk : c.cid ≠ k) : c ∈ allControls forms := by
  rw [allControls_mapControlState] at hm
  rcases List.mem_map.mp hm with ⟨c0, hc0, he⟩
  by_cases h0 : c0.cid = k
  · exfalso
    apply hk
    rw [← he, modOne_cid, h0]
  · rw [← he]
    unfold modOne
    rw [if_neg h0]
    exact hc0

lemma mem_mapControlState_const_state {c' : Control} {forms : List Form}
    {k : Nat} {s : CState}
    (hm : c' ∈ allControls (mapControlState forms k (fun _ => s)))
    (hc : c'.cid = k) : c'.state = s := by
  rw [allControls_mapControlState] at hm
  rcases List.mem_map.mp hm with ⟨c0, _, he⟩
  by_cases h0 : c0.cid = k
  · rw [← he]
    unfold modOne
    rw [if_pos h0]
  · exfalso
    apply h0
    rw [← modOne_cid k (fun _ => s) c0, he, hc]

lemma cidsOf_setFocus (st : UIState) (target : Option Nat) :
    cidsOf (st.setFocus target).forms = cidsOf st.forms := by
  unfold UIState.setFocus
  split
  · split <;> simp [cidsOf_mapControlState]
  · split
    · rfl
    · split
      · split <;> simp [cidsOf_mapControlState]
      · rfl

lemma cidsOf_cancelGesture (st : UIState) :
    cidsOf (st.cancelGesture).forms = cidsOf st.forms := by
  unfold UIState.cancelGesture
  split
  · rfl
  · simp [cidsOf_mapControlState]

lemma cancelGesture_focus (st : UIState) :
    (st.cancelGesture).focusControl = st.focusControl := by
  unfold UIState.cancelGesture
  split <;> rfl

lemma cidsOf_step (st : UIState) (e : UIEvent) :
    cidsOf (st.step e).forms = cidsOf st.forms := by
  cases e with
  | press px py =>
    show cidsOf (st.handlePress px py).1.forms = cidsOf st.forms
    cases hfi : (st.cancelGesture).findInputControl px py with
    | some fc =>
      simp only [UIState.handlePress, hfi]
      by_cases hcf : fc.2.canFocus = true
      · simp only [if_pos hcf]
        rw [cidsOf_mapControlState, cidsOf_setFocus, cidsOf_cancelGesture]
      · simp only [if_neg hcf]
        rw [cidsOf_mapControlState, cidsOf_cancelGesture]
    | none =>
      simp only [UIState.handlePress, hfi]
      cases htf : topmostHitForm (st.cancelGesture).forms px py with
      | some f => simp only [htf, cidsOf_cancelGesture]
      | none => simp only [htf, cidsOf_cancelGesture]
  | move px py =>
    show cidsOf (st.handleMove px py).1.forms = cidsOf st.forms
    unfold UIState.handleMove
    split
    · rfl
    · simp [cidsOf_mapControlState]
  | release px py =>
    show cidsOf (st.handleRelease px py).1.forms = cidsOf st.forms
    unfold UIState.handleRelease
    split
    · rfl
    · simp [cidsOf_mapControlState]
  | key code => rfl
  | focusChange target => exact cidsOf_setFocus st target

/-- Well-formedness of the live-form set: control identifiers are globally
distinct, as they stand for distinct control objects. -/
def WFcids (forms : List Form) : Prop :=
  (cidsOf forms).Nodup

lemma WFcids_step (st : UIState) (e : UIEvent) (h : WFcids st.forms) :
    WFcids (st.step e).forms := by
  unfold WFcids at h ⊢
  rw [cidsOf_step]
  exact h

lemma WFcids_run (st : UIState) (es : List UIEvent) (h : WFcids st.forms) :
    WFcids (st.run es).forms := by
  induction es generalizing st with
  | nil => exact h
  | cons e rest ih => exact ih (st.step e) (WFcids_step st e h)

/-- The controls the process-wide focus reference resolves to. -/
def focusReferents (st : UIState) : List Control :=
  (allControls st.forms).filter (fun c => st.focusControl == some c.cid)

/-- The controls the process-wide active reference resolves to. -/
def activeReferents (st : UIState) : List Control :=
  (allControls st.forms).filter (fun c => st.activeControl == some c.cid)

lemma filter_cid_length_le_one (l : List Control)
    (h : (l.map (fun c => c.cid)).Nodup) (o : Option Nat) :
    (l.filter (fun c => o == some c.cid)).length ≤ 1 := by
  induction l with
  | nil => simp
  | cons c rest ih =>
    simp only [List.map_cons, List.nodup_cons] at h
    by_cases hc : (o == some c.cid) = true
    · have ho : o = some c.cid := by
        exact beq_iff_eq.mp hc
      have hrest : rest.filter (fun d => o == some d.cid) = [] := by
        refine List.filter_eq_nil_iff.mpr (fun d hd => ?_)
        intro hb
        have : c.cid = d.cid := by
          have h2 : some c.cid = some d.cid := by
            rw [← ho]
            exact beq_iff_eq.mp hb
          exact Option.some.inj h2
        exact h.1 (this ▸ List.mem_map_of_mem (fun c => c.cid) hd)
      simp [List.filter_cons, hc, hrest]
    · rw [Bool.not_eq_true] at hc
      simp only [List.filter_cons, hc, Bool.false_eq_true, if_false]
      exact ih h.2

/-- Sample control builder used by concrete witnesses. -/
def mkControl (i : Nat) (t : Nat) (b : Rect) : Control :=
  { cid := i, state := CState.NORMAL, canFocus := true, bounds := b, tex := t, theme := 0 }

/-- Sample overlay form builder used by concrete witnesses. -/
def mkForm (i : Nat) (b : Rect) (cs : List Control) : Form :=
  { fid := i, enabled := true, visible := true, bounds := b, controls := cs,
    consumeEvents := false, node := none, projectionMatrix := Mat.identity,
    batched := true, style := defaultStyle, theme := 0 }

/-- Sample node used by concrete witnesses. -/
def mkNode : Node :=
  { nid := 1, transform := { a := 2, b := 0, c := 0, d := 2, tx := 5, ty := 5 } }

/-- Sample process-wide UI state used by concrete witnesses: one overlay form
with two enabled controls. -/
def sampleState : UIState :=
  { forms :=
      [mkForm 1 { x := 0, y := 0, w := 100, h := 100 }
        [ mkControl 1 0 { x := 10, y := 10, w := 20, h := 20 },
          mkControl 2 0 { x := 50, y := 50, w := 20, h := 20 } ]],
    focusControl := none, activeControl := none,
    activeControlState := CState.NORMAL }

/-- C1: for every sequence of press, release, move, key and focus-change
operations, the process-wide UI state resolves its focus reference to at most
one control and its active reference to at most one control. -/
theorem atMostOneFocusActive (st : UIState) (es : List UIEvent)
    (h : WFcids st.forms) :
    (focusReferents (st.run es)).length ≤ 1 ∧
    (activeReferents (st.run es)).length ≤ 1 := by
  have hwf := WFcids_run st es h
  unfold WFcids cidsOf at hwf
  unfold focusReferents activeReferents
  exact ⟨filter_cid_length_le_one _ hwf _, filter_cid_length_le_one _ hwf _⟩

/-- Witness for C1 on a concrete state and event sequence. -/
theorem atMostOneFocusActive_w :
    (focusReferents (sampleState.run
      [UIEvent.press 15 15, UIEvent.move 60 60, UIEvent.release 60 60])).length ≤ 1 ∧
    (activeReferents (sampleState.run
      [UIEvent.press 15 15, UIEvent.move 60 60, UIEvent.release 60 60])).length ≤ 1 :=
  atMostOneFocusActive sampleState
    [UIEvent.press 15 15, UIEvent.move 60 60, UIEvent.release 60 60]
    (by unfold WFcids; decide)

/-- Pointer-move events at the given sequence of screen points. -/
def movesOf (ps : List (Int × Int)) : List UIEvent :=
  ps.map (fun p => UIEvent.move p.1 p.2)

lemma handleMove_active (st : UIState) (px py : Int) :
    (st.handleMove px py).1.activeControl = st.activeControl := by
  unfold UIState.handleMove
  split <;> rfl

/-- C2: once a gesture has begun on control C (the active reference is C),
every subsequent move event is delivered to C and the active reference stays
C until release, whatever the move coordinates are — including coordinates
outside C's bounds. -/
theorem gestureCaptureInvariant (st : UIState) (k : Nat)
    (ps : List (Int × Int)) (h : st.activeControl = some k) :
    (st.run (movesOf ps)).activeControl = some k ∧
    ∀ t ∈ st.targetsRun (movesOf ps), t = some k := by
  induction ps generalizing st with
  | nil =>
    exact ⟨h, by simp [movesOf, UIState.targetsRun]⟩
  | cons p rest ih =>
    have hstep : (st.step (UIEvent.move p.1 p.2)).activeControl = some k := by
      show (st.handleMove p.1 p.2).1.activeControl = some k
      rw [handleMove_active]
      exact h
    have ih2 := ih (st.step (UIEvent.move p.1 p.2)) hstep
    constructor
    · exact ih2.1
    · intro t ht
      simp only [movesOf, List.map_cons, UIState.targetsRun, List.mem_cons] at ht
      rcases ht with h1 | h2
      · rw [h1]
        show st.routedTo (UIEvent.move p.1 p.2) = some k
        simpa [UIState.routedTo] using h
      · exact ih2.2 t (by simpa [movesOf] using h2)

/-- Witness for C2 on a concrete captured state, with moves that leave the
control's bounds: the active reference is still control 1 afterwards. -/
theorem gestureCaptureInvariant_w :
    ((sampleState.run [UIEvent.press 15 15]).run
      (movesOf [(90, 90), (15, 15)])).activeControl = some 1 :=
  (gestureCaptureInvariant (sampleState.run [UIEvent.press 15 15]) 1
    [(90, 90), (15, 15)] (by decide)).1

lemma state_mem_mapControlState {c' : Control} {forms : List Form} {k : Nat}
    {g : CState → CState}
    (hm : c' ∈ allControls (mapControlState forms k g)) (hc : c'.cid = k) :
    ∃ s0, c'.state = g s0 := by
  rw [allControls_mapControlState] at hm
  rcases List.mem_map.mp hm with ⟨c0, _, he⟩
  by_cases h0 : c0.cid = k
  · refine ⟨c0.state, ?_⟩
    rw [← he]
    unfold modOne
    rw [if_pos h0]
  · exfalso
    apply h0
    rw [← modOne_cid k g c0, he, hc]

/-- C3: a press that targets control c followed by a release at the same point
with no intervening move leaves c in state NORMAL or FOCUS — never ACTIVE. -/
theorem pressReleaseEndsNotActive (st : UIState) (px py : Int) (f : Form)
    (c : Control) (h : (st.cancelGesture).findInputControl px py = some (f, c)) :
    ∀ c' ∈ allControls ((st.run
      [UIEvent.press px py, UIEvent.release px py]).forms),
      c'.cid = c.cid → (c'.state = CState.NORMAL ∨ c'.state = CState.FOCUS) := by
  intro c' hc' hcid
  have hact : ((st.handlePress px py).1).activeControl = some c.cid := by
    simp only [UIState.handlePress, h]
  have hrun : st.run [UIEvent.press px py, UIEvent.release px py] =
      ((st.handlePress px py).1.handleRelease px py).1 := rfl
  rw [hrun] at hc'
  simp only [UIState.handleRelease, hact] at hc'
  rcases state_mem_mapControlState hc' hcid with ⟨s0, hs⟩
  rw [hs]
  by_cases hin :
      controlInsideAt (st.handlePress px py).1.forms c.cid px py = true
  · right
    rw [if_pos hin]
  · left
    rw [if_neg hin]

/-- Control 1 of the sample state as it stands after the sample press/release
pair: still inside its bounds, so in FOCUS state. -/
def sampleReleased : Control :=
  { cid := 1, state := CState.FOCUS, canFocus := true,
    bounds := { x := 10, y := 10, w := 20, h := 20 }, tex := 0, theme := 0 }

/-- Witness for C3 on a concrete press/release pair on control 1. -/
theorem pressReleaseEndsNotActive_w :
    sampleReleased.state = CState.NORMAL ∨ sampleReleased.state = CState.FOCUS :=
  pressReleaseEndsNotActive sampleState 15 15
    (mkForm 1 { x := 0, y := 0, w := 100, h := 100 }
      [ mkControl 1 0 { x := 10, y := 10, w := 20, h := 20 },
        mkControl 2 0 { x := 50, y := 50, w := 20, h := 20 } ])
    (mkControl 1 0 { x := 10, y := 10, w := 20, h := 20 }) (by decide)
    sampleReleased (by decide) (by decide)

lemma mem_allControls_of_mem {f : Form} {c : Control} {forms : List Form}
    (hf : f ∈ forms) (hc : c ∈ f.controls) : c ∈ allControls forms := by
  unfold allControls
  exact List.mem_flatMap.mpr ⟨f, hf, hc⟩

lemma findInputControl_spec {st : UIState} {px py : Int} {fc : Form × Control}
    (h : st.findInputControl px py = some fc) :
    topmostHitForm st.forms px py = some fc.1 ∧ fc.1 ∈ st.forms ∧
      fc.2 ∈ fc.1.controls ∧ fc.2.isEnabled = true := by
  unfold UIState.findInputControl at h
  cases htf : topmostHitForm st.forms px py with
  | none =>
    simp [htf] at h
  | some f =>
    simp only [htf] at h
    cases hpp : f.projectPoint px py with
    | none =>
      simp [hpp] at h
    | some p =>
      simp only [hpp] at h
      rcases Option.map_eq_some'.mp h with ⟨c, hfind, hfc⟩
      unfold findControlAt at hfind
      have hmem : c ∈ f.controls :=
        List.mem_reverse.mp (List.mem_of_find?_eq_some hfind)
      have hpred := List.find?_some hfind
      rw [Bool.and_eq_true] at hpred
      have hform : f ∈ st.forms := by
        unfold topmostHitForm at htf
        exact List.mem_reverse.mp (List.mem_of_find?_eq_some htf)
      rw [← hfc]
      exact ⟨rfl, hform, hmem, hpred.1⟩

lemma topmostHitForm_last {l1 l2 : List Form} {A B : Form} {px py : Int}
    (hBe : B.enabled = true) (hBv : B.visible = true) (hBn : B.node = none)
    (hBc : B.bounds.contains px py = true) :
    topmostHitForm (l1 ++ A :: (l2 ++ [B])) px py = some B := by
  have hpred : (B.enabled && B.visible && (B.projectPoint px py).isSome) = true := by
    rw [hBe, hBv]
    unfold Form.projectPoint
    rw [hBn]
    simp [hBc]
  have hrev : (l1 ++ A :: (l2 ++ [B])).reverse =
      B :: (l2.reverse ++ A :: l1.reverse) := by
    simp [List.reverse_append]
  unfold topmostHitForm
  rw [hrev, List.find?_cons, hpred]

lemma cid_ne_across {forms l1 l2 : List Form} {A B : Form} {d c : Control}
    (hwf : WFcids forms) (hshape : forms = l1 ++ A :: (l2 ++ [B]))
    (hd : d ∈ A.controls) (hc : c ∈ B.controls) : d.cid ≠ c.cid := by
  intro heq
  unfold WFcids cidsOf at hwf
  rw [hshape, allControls_append, allControls_cons, allControls_append,
    allControls_cons, allControls_nil, List.append_nil, List.map_append,
    List.map_append, List.map_append] at hwf
  have hsub : (A.controls.map (fun c => c.cid) ++
      B.controls.map (fun c => c.cid)).Sublist
      ((allControls l1).map (fun c => c.cid) ++
        (A.controls.map (fun c => c.cid) ++
          ((allControls l2).map (fun c => c.cid) ++
            B.controls.map (fun c => c.cid)))) := by
    refine List.Sublist.trans ?_ (List.sublist_append_right _ _)
    exact List.Sublist.append_left (List.sublist_append_right _ _) _
  have hnd := hsub.nodup hwf
  have hdisj := List.disjoint_of_nodup_append hnd
  refine hdisj (List.mem_map_of_mem (fun c => c.cid) hd) ?_
  rw [heq]
  exact List.mem_map_of_mem (fun c => c.cid) hc

/-- C6: when two overlapping enabled, visible overlay forms A and B are both
under the pointer and B was inserted after A (B top-most), a press is decided
by B alone — the hit form is B, any target control belongs to B, and every
control of A comes through the press unchanged (A receives no part of the
event). -/
theorem topmostFormWinsPress (st : UIState) (px py : Int) (l1 l2 : List Form)
    (A B : Form) (hshape : st.forms = l1 ++ A :: (l2 ++ [B]))
    (hAe : A.enabled = true) (hAv : A.visible = true) (hAn : A.node = none)
    (hAc : A.bounds.contains px py = true)
    (hBe : B.enabled = true) (hBv : B.visible = true) (hBn : B.node = none)
    (hBc : B.bounds.contains px py = true)
    (hwf : WFcids st.forms)
    (hact : st.activeControl = none) (hfoc : st.focusControl = none) :
    topmostHitForm st.forms px py = some B ∧
    (∀ fc : Form × Control, st.findInputControl px py = some fc →
      fc.1 = B ∧ fc.2 ∈ B.controls) ∧
    (∀ d ∈ A.controls, d ∈ allControls ((st.handlePress px py).1.forms)) := by
  have htop : topmostHitForm st.forms px py = some B := by
    rw [hshape]
    exact topmostHitForm_last hBe hBv hBn hBc
  have htarget : ∀ fc : Form × Control, st.findInputControl px py = some fc →
      fc.1 = B ∧ fc.2 ∈ B.controls := by
    intro fc hfc
    rcases findInputControl_spec hfc with ⟨h1, _, h3, _⟩
    rw [htop] at h1
    have hfcB : fc.1 = B := (Option.some.inj h1).symm
    exact ⟨hfcB, hfcB ▸ h3⟩
  refine ⟨htop, htarget, ?_⟩
  intro d hd
  have hcg : st.cancelGesture = st := by
    unfold UIState.cancelGesture
    rw [hact]
  have hmem : d ∈ allControls st.forms := by
    rw [hshape, allControls_append, allControls_cons]
    exact List.mem_append_right _ (List.mem_append_left _ hd)
  cases hfi : st.findInputControl px py with
  | none =>
    simp only [UIState.handlePress, hcg, hfi]
    cases htf : topmostHitForm st.forms px py with
    | some f => simpa only [htf] using hmem
    | none => simpa only [htf] using hmem
  | some fc =>
    have hB := htarget fc hfi
    have hdk : d.cid ≠ fc.2.cid := cid_ne_across hwf hshape hd hB.2
    simp only [UIState.handlePress, hcg, hfi]
    have hmem1 : d ∈ allControls
        (if fc.2.canFocus = true then st.setFocus (some fc.2.cid) else st).forms := by
      split
      · simp only [UIState.setFocus]
        cases hl : lookupControl st.forms fc.2.cid with
        | none =>
          simp only [hl]
          exact hmem
        | some fc2 =>
          simp only [hl]
          by_cases hen : fc2.2.isEnabled = true
          · rw [if_pos hen]
            simp only [hfoc]
            exact mem_mapControlState_of_ne promoteFocus hmem hdk
          · rw [if_neg hen]
            exact hmem
      · exact hmem
    exact mem_mapControlState_of_ne _ hmem1 hdk

/-- Lower overlapping sample form, inserted first. -/
def sampleFormA : Form :=
  mkForm 1 { x := 0, y := 0, w := 100, h := 100 }
    [mkControl 1 0 { x := 10, y := 10, w := 30, h := 30 }]

/-- Upper overlapping sample form, inserted after sampleFormA. -/
def sampleFormB : Form :=
  mkForm 2 { x := 0, y := 0, w := 50, h := 50 }
    [mkControl 2 0 { x := 10, y := 10, w := 30, h := 30 }]

/-- Sample UI state with the two overlapping forms. -/
def sampleStacked : UIState :=
  { forms := [sampleFormA, sampleFormB], focusControl := none,
    activeControl := none, activeControlState := CState.NORMAL }

/-- Witness for C6: with the two overlapping sample forms, the later-inserted
form wins the press at (20,20): it is the hit form, the target control is its
control 2, and control 1 of the lower form is untouched. -/
theorem topmostFormWinsPress_w :
    topmostHitForm sampleStacked.forms 20 20 = some sampleFormB ∧
    ((sampleFormB, mkControl 2 0 { x := 10, y := 10, w := 30, h := 30 }).1 =
        sampleFormB ∧
      (sampleFormB, mkControl 2 0 { x := 10, y := 10, w := 30, h := 30 }).2 ∈
        sampleFormB.controls) ∧
    mkControl 1 0 { x := 10, y := 10, w := 30, h := 30 } ∈
      allControls ((sampleStacked.handlePress 20 20).1.forms) := by
  have h := topmostFormWinsPress sampleStacked 20 20 [] [] sampleFormA
    sampleFormB rfl rfl rfl rfl (by decide) rfl rfl rfl (by decide)
    (by unfold WFcids; decide) rfl rfl
  exact ⟨h.1,
    h.2.1 (sampleFormB, mkControl 2 0 { x := 10, y := 10, w := 30, h := 30 })
      (by decide),
    h.2.2 (mkControl 1 0 { x := 10, y := 10, w := 30, h := 30 }) (by decide)⟩

/-- A control identifier is dormant when every control carrying it is
DISABLED (or absent) and neither the focus nor the active reference names
it. -/
def dormant (st : UIState) (k : Nat) : Prop :=
  (∀ c ∈ allControls st.forms, c.cid = k → c.state = CState.DISABLED) ∧
  st.focusControl ≠ some k ∧ st.activeControl ≠ some k

lemma disabled_at_mapControlState {forms : List Form} {k a : Nat}
    (g : CState → CState)
    (h : ∀ c ∈ allControls forms, c.cid = k → c.state = CState.DISABLED)
    (hak : a ≠ k) :
    ∀ c ∈ allControls (mapControlState forms a g), c.cid = k →
      c.state = CState.DISABLED := by
  intro c hc hck
  have hcne : c.cid ≠ a := by
    rw [hck]
    exact fun he => hak he.symm
  exact h c (mem_of_mem_mapControlState_ne hc hcne) hck

lemma lookupControl_spec {forms : List Form} {k : Nat} {fc : Form × Control}
    (h : lookupControl forms k = some fc) :
    fc.2.cid = k ∧ fc.2 ∈ allControls forms := by
  induction forms with
  | nil => simp [lookupControl] at h
  | cons f rest ih =>
    unfold lookupControl at h
    cases hf : f.controls.find? (fun c => c.cid = k) with
    | some c =>
      simp only [hf] at h
      have hm := List.mem_of_find?_eq_some hf
      have hp := List.find?_some hf
      have hfc := Option.some.inj h
      rw [← hfc]
      refine ⟨of_decide_eq_true hp, ?_⟩
      rw [allControls_cons]
      exact List.mem_append_left _ hm
    | none =>
      simp only [hf] at h
      rcases ih h with ⟨h1, h2⟩
      refine ⟨h1, ?_⟩
      rw [allControls_cons]
      exact List.mem_append_right _ h2

lemma dormant_cancelGesture {st : UIState} {k : Nat} (h : dormant st k) :
    dormant (st.cancelGesture) k := by
  unfold UIState.cancelGesture
  cases ha : st.activeControl with
  | none => exact h
  | some a =>
    have hak : a ≠ k := fun he => h.2.2 (by rw [ha, he])
    exact ⟨disabled_at_mapControlState cancelActive h.1 hak, h.2.1, by simp⟩

lemma dormant_setFocus {st : UIState} {k : Nat} (h : dormant st k)
    (target : Option Nat) : dormant (st.setFocus target) k := by
  cases target with
  | none =>
    simp only [UIState.setFocus]
    cases hf : st.focusControl with
    | none => exact ⟨h.1, by simp, h.2.2⟩
    | some old =>
      have hok : old ≠ k := fun he => h.2.1 (by rw [hf, he])
      exact ⟨disabled_at_mapControlState demoteFocus h.1 hok, by simp, h.2.2⟩
  | some m =>
    simp only [UIState.setFocus]
    cases hl : lookupControl st.forms m with
    | none => exact h
    | some fc =>
      simp only [hl]
      by_cases hen : fc.2.isEnabled = true
      · rw [if_pos hen]
        have hcm := (lookupControl_spec hl).1
        have hmem := (lookupControl_spec hl).2
        have hmk : m ≠ k := by
          intro hmk0
          have hdis := h.1 fc.2 hmem (by rw [hcm, hmk0])
          rw [Control.isEnabled, hdis] at hen
          exact Bool.noConfusion hen
        cases hf : st.focusControl with
        | none =>
          simp only
          refine ⟨disabled_at_mapControlState promoteFocus h.1 hmk, ?_, h.2.2⟩
          simp only [ne_eq, Option.some.injEq]
          exact fun he => hmk he
        | some old =>
          have hok : old ≠ k := fun he => h.2.1 (by rw [hf, he])
          refine ⟨disabled_at_mapControlState promoteFocus
            (disabled_at_mapControlState demoteFocus h.1 hok) hmk, ?_, h.2.2⟩
          simp only [ne_eq, Option.some.injEq]
          exact fun he => hmk he
      · rw [if_neg hen]
        exact h

lemma dormant_findInputControl {st : UIState} {k : Nat} {px py : Int}
    {fc : Form × Control} (h : dormant st k)
    (hfi : st.findInputControl px py = some fc) : fc.2.cid ≠ k := by
  intro he
  rcases findInputControl_spec hfi with ⟨_, hform, hctl, hen⟩
  have hmem : fc.2 ∈ allControls st.forms := mem_allControls_of_mem hform hctl
  have hdis := h.1 fc.2 hmem he
  rw [Control.isEnabled, hdis] at hen
  exact Bool.noConfusion hen

lemma dormant_handlePress {st : UIState} {k : Nat} (h : dormant st k)
    (px py : Int) : dormant (st.handlePress px py).1 k := by
  have h0 := dormant_cancelGesture h
  cases hfi : (st.cancelGesture).findInputControl px py with
  | none =>
    simp only [UIState.handlePress, hfi]
    cases htf : topmostHitForm (st.cancelGesture).forms px py with
    | some f => simpa only [htf] using h0
    | none => simpa only [htf] using h0
  | some fc =>
    have hck : fc.2.cid ≠ k := dormant_findInputControl h0 hfi
    simp only [UIState.handlePress, hfi]
    have h1 : dormant (if fc.2.canFocus = true then
        (st.cancelGesture).setFocus (some fc.2.cid) else st.cancelGesture) k := by
      split
      · exact dormant_setFocus h0 _
      · exact h0
    refine ⟨disabled_at_mapControlState _ h1.1 hck, h1.2.1, ?_⟩
    simp only [ne_eq, Option.some.injEq]
    exact fun he => hck he

lemma dormant_handleMove {st : UIState} {k : Nat} (h : dormant st k)
    (px py : Int) : dormant (st.handleMove px py).1 k := by
  unfold UIState.handleMove
  cases ha : st.activeControl with
  | none => exact h
  | some a =>
    have hak : a ≠ k := fun he => h.2.2 (by rw [ha, he])
    refine ⟨disabled_at_mapControlState _ h.1 hak, h.2.1, ?_⟩
    simp only [ne_eq, Option.some.injEq]
    exact hak

lemma dormant_handleRelease {st : UIState} {k : Nat} (h : dormant st k)
    (px py : Int) : dormant (st.handleRelease px py).1 k := by
  unfold UIState.handleRelease
  cases ha : st.activeControl with
  | none => exact h
  | some a =>
    have hak : a ≠ k := fun he => h.2.2 (by rw [ha, he])
    exact ⟨disabled_at_mapControlState _ h.1 hak, h.2.1, by simp⟩

lemma dormant_step {st : UIState} {k : Nat} (h : dormant st k) (e : UIEvent) :
    dormant (st.step e) k := by
  cases e with
  | press px py => exact dormant_handlePress h px py
  | move px py => exact dormant_handleMove h px py
  | release px py => exact dormant_handleRelease h px py
  | key code => exact h
  | focusChange target => exact dormant_setFocus h target

lemma dormant_routedTo {st : UIState} {k : Nat} (h : dormant st k)
    (e : UIEvent) : st.routedTo e ≠ some k := by
  cases e with
  | press px py =>
    unfold UIState.routedTo
    cases hfi : (st.cancelGesture).findInputControl px py with
    | none => simp [hfi]
    | some fc =>
      have hck : fc.2.cid ≠ k := dormant_findInputControl (dormant_cancelGesture h) hfi
      simp only [hfi, Option.map_some', ne_eq, Option.some.injEq]
      exact fun he => hck he
  | move px py => exact h.2.2
  | release px py => exact h.2.2
  | key code => exact h.2.1
  | focusChange target => simp [UIState.routedTo]

lemma dormant_targetsRun {k : Nat} (es : List UIEvent) :
    ∀ st : UIState, dormant st k → some k ∉ st.targetsRun es := by
  induction es with
  | nil =>
    intro st _
    simp [UIState.targetsRun]
  | cons e rest ih =>
    intro st h
    simp only [UIState.targetsRun, List.mem_cons]
    intro hmem
    rcases hmem with h1 | h2
    · exact dormant_routedTo h e h1.symm
    · exact ih (st.step e) (dormant_step h e) h2

lemma allControls_removeForms (forms : List Form) (k : Nat) :
    allControls (forms.map
      (fun f => { f with controls := f.controls.filter (fun c => c.cid ≠ k) })) =
      (allControls forms).filter (fun c => c.cid ≠ k) := by
  induction forms with
  | nil => rfl
  | cons f fs ih =>
    simp only [List.map_cons]
    rw [allControls_cons, allControls_cons, List.filter_append, ih]

/-- C7: immediately after disabling the current focus control, or removing
(destroying) it, getFocusControl returns null, and no event of any subsequent
input sequence is routed to that control. -/
theorem removedFocusNeverRouted (st : UIState) (k : Nat) (es : List UIEvent)
    (hf : st.focusControl = some k) :
    (st.disableControl k).getFocusControl = none ∧
    (st.removeControl k).getFocusControl = none ∧
    some k ∉ (st.disableControl k).targetsRun es ∧
    some k ∉ (st.removeControl k).targetsRun es := by
  have hd1 : dormant (st.disableControl k) k := by
    refine ⟨?_, ?_, ?_⟩
    · intro c hc hck
      exact mem_mapControlState_const_state hc hck
    · show (if st.focusControl = some k then none else st.focusControl) ≠ some k
      rw [if_pos hf]
      simp
    · show (if st.activeControl = some k then none else st.activeControl) ≠ some k
      split
      · simp
      · assumption
  have hd2 : dormant (st.removeControl k) k := by
    refine ⟨?_, ?_, ?_⟩
    · intro c hc hck
      exfalso
      rw [UIState.removeControl] at hc
      simp only at hc
      rw [allControls_removeForms] at hc
      have := List.of_mem_filter hc
      exact of_decide_eq_true this hck
    · show (if st.focusControl = some k then none else st.focusControl) ≠ some k
      rw [if_pos hf]
      simp
    · show (if st.activeControl = some k then none else st.activeControl) ≠ some k
      split
      · simp
      · assumption
  refine ⟨?_, ?_, dormant_targetsRun es _ hd1, dormant_targetsRun es _ hd2⟩
  · show (if st.focusControl = some k then none else st.focusControl) = none
    rw [if_pos hf]
  · show (if st.focusControl = some k then none else st.focusControl) = none
    rw [if_pos hf]

/-- Sample UI state whose focus control is control 1, used by the C7
witness. -/
def sampleFocusState : UIState :=
  { forms :=
      [mkForm 1 { x := 0, y := 0, w := 100, h := 100 }
        [ { cid := 1, state := CState.FOCUS, canFocus := true,
            bounds := { x := 10, y := 10, w := 20, h := 20 }, tex := 0, theme := 0 },
          mkControl 2 0 { x := 50, y := 50, w := 20, h := 20 } ]],
    focusControl := some 1, activeControl := none,
    activeControlState := CState.NORMAL }

/-- Witness for C7: disabling or removing the focused control clears the
focus reference, and a subsequent press on its old bounds plus a key stroke
are not routed to it. -/
theorem removedFocusNeverRouted_w :
    (sampleFocusState.disableControl 1).getFocusControl = none ∧
    (sampleFocusState.removeControl 1).getFocusControl = none ∧
    some 1 ∉ (sampleFocusState.disableControl 1).targetsRun
      [UIEvent.press 15 15, UIEvent.key 13] ∧
    some 1 ∉ (sampleFocusState.removeControl 1).targetsRun
      [UIEvent.press 15 15, UIEvent.key 13] :=
  removedFocusNeverRouted sampleFocusState 1
    [UIEvent.press 15 15, UIEvent.key 13] (by decide)

/-- C4: for an overlay form (node = none) whose origin is (0,0), projectPoint
is the identity map — it returns the screen point itself as form-local
coordinates and reports a hit exactly when the point lies within the form's
bounds. -/
theorem overlayProjectIdentity (f : Form) (px py : Int)
    (hn : f.node = none) (hx : f.bounds.x = 0) (hy : f.bounds.y = 0) :
    f.projectPoint px py =
      (if f.bounds.contains px py then some (px, py) else none) := by
  unfold Form.projectPoint
  rw [hn]
  simp [hx, hy]

/-- Witness for C4 at a concrete overlay form and point. -/
theorem overlayProjectIdentity_w :
    (mkForm 7 { x := 0, y := 0, w := 100, h := 50 } []).projectPoint 10 20 =
      (if (mkForm 7 { x := 0, y := 0, w := 100, h := 50 } []).bounds.contains 10 20 then
        some (10, 20) else none) :=
  overlayProjectIdentity _ 10 20 (by decide) (by decide) (by decide)

/-- C5: attaching a form to a node with setNode and then detaching it (setNode
with no node) restores overlay projection behavior — the projection matrix is
the identity again and, for a form with origin (0,0), projecting a screen
point behaves as the identity map again. -/
theorem setNodeRoundTrip (f : Form) (n : Node) (px py : Int)
    (hx : f.bounds.x = 0) (hy : f.bounds.y = 0) :
    ((f.setNode (some n)).setNode none).getProjectionMatrix = Mat.identity ∧
    ((f.setNode (some n)).setNode none).projectPoint px py =
      (if f.bounds.contains px py then some (px, py) else none) := by
  constructor
  · rfl
  · have hb : ((f.setNode (some n)).setNode none).bounds = f.bounds := rfl
    have hn : ((f.setNode (some n)).setNode none).node = none := rfl
    rw [overlayProjectIdentity _ px py hn (by rw [hb, hx]) (by rw [hb, hy]), hb]

/-- Witness for C5 at a concrete form and node. -/
theorem setNodeRoundTrip_w :
    (Form.setNode (Form.setNode (mkForm 3 { x := 0, y := 0, w := 40, h := 40 } [])
      (some mkNode)) none).getProjectionMatrix = Mat.identity ∧
    (Form.setNode (Form.setNode (mkForm 3 { x := 0, y := 0, w := 40, h := 40 } [])
      (some mkNode)) none).projectPoint 8 9 =
      (if (mkForm 3 { x := 0, y := 0, w := 40, h := 40 } []).bounds.contains 8 9 then
        some (8, 9) else none) :=
  setNodeRoundTrip _ _ 8 9 (by decide) (by decide)

/-- C8: for a form with batching enabled, the draw-call count returned by draw
is at most the number of controls drawn, and equals the number of contiguous
runs of drawn controls sharing the same texture. -/
theorem drawCallCountBatched (f : Form) (hb : f.batched = true) :
    Form.draw f ≤ f.controls.length ∧
    Form.draw f = textureRuns (f.controls.map (fun c => c.tex)) := by
  have hd : Form.draw f = textureRuns (f.controls.map (fun c => c.tex)) := by
    unfold Form.draw
    rw [if_pos hb, drawBatched_none]
  refine ⟨?_, hd⟩
  rw [hd]
  have := textureRuns_le_length (f.controls.map (fun c => c.tex))
  simpa using this

/-- Witness for C8 at a concrete batched form with a mixed texture list. -/
theorem drawCallCountBatched_w :
    Form.draw (mkForm 2 { x := 0, y := 0, w := 10, h := 10 }
      [ mkControl 1 5 { x := 0, y := 0, w := 1, h := 1 },
        mkControl 2 5 { x := 0, y := 0, w := 1, h := 1 },
        mkControl 3 9 { x := 0, y := 0, w := 1, h := 1 } ]) ≤
      (mkForm 2 { x := 0, y := 0, w := 10, h := 10 }
        [ mkControl 1 5 { x := 0, y := 0, w := 1, h := 1 },
          mkControl 2 5 { x := 0, y := 0, w := 1, h := 1 },
          mkControl 3 9 { x := 0, y := 0, w := 1, h := 1 } ]).controls.length ∧
    Form.draw (mkForm 2 { x := 0, y := 0, w := 10, h := 10 }
      [ mkControl 1 5 { x := 0, y := 0, w := 1, h := 1 },
        mkControl 2 5 { x := 0, y := 0, w := 1, h := 1 },
        mkControl 3 9 { x := 0, y := 0, w := 1, h := 1 } ]) =
      textureRuns ((mkForm 2 { x := 0, y := 0, w := 10, h := 10 }
        [ mkControl 1 5 { x := 0, y := 0, w := 1, h := 1 },
          mkControl 2 5 { x := 0, y := 0, w := 1, h := 1 },
          mkControl 3 9 { x := 0, y := 0, w := 1, h := 1 } ]).controls.map
            (fun c => c.tex)) :=
  drawCallCountBatched _ (by decide)

/-- C9: for every newly created form, batching is enabled by default —
isBatchingEnabled returns true before any call to setBatchingEnabled. -/
theorem batchingEnabledByDefault (id : Nat) (style : Option Style)
    (layoutType : LayoutType) :
    (Form.create id style layoutType).map Form.isBatchingEnabled = some true := by
  rfl

lemma foldl_addControl_theme (cs : List Control) (f : Form) (T : Nat)
    (hT : f.theme = T) (h0 : ∀ c ∈ f.controls, c.theme = T) :
    ∀ c ∈ (cs.foldl Form.addControl f).controls, c.theme = T := by
  induction cs generalizing f with
  | nil => exact h0
  | cons c rest ih =>
    refine ih (f.addControl c) hT (fun d hd => ?_)
    simp only [Form.addControl, List.mem_append, List.mem_singleton] at hd
    rcases hd with h1 | h1
    · exact h0 d h1
    · subst h1
      exact hT

/-- C10: Form.create accepts none (NULL) for the style: the result is a form,
not a failure, the form uses the default UI theme's style, and every control
attached to the form inherits the theme containing the form's style. -/
theorem createNullStyleUsesDefaultTheme (id : Nat) (layoutType : LayoutType)
    (cs : List Control) :
    ∃ f, Form.create id none layoutType = some f ∧
      f.style = defaultStyle ∧
      f.theme = defaultStyle.themeId ∧
      ∀ c ∈ (cs.foldl Form.addControl f).controls, c.theme = defaultStyle.themeId := by
  refine ⟨{ fid := id, enabled := true, visible := true,
            bounds := { x := 0, y := 0, w := 0, h := 0 }, controls := [],
            consumeEvents := false, node := none, projectionMatrix := Mat.identity,
            batched := true, style := defaultStyle, theme := defaultStyle.themeId },
          rfl, rfl, rfl, ?_⟩
  exact foldl_addControl_theme cs _ _ rfl (by simp)

end GamePlay
